import Mathlib

/-!
Formal model of pyarmor `src/cli/project.py` (Pyarmor 9 project object):
the code-unit hierarchy (`Module`/`Script`/`Package`), the `Project.load`
algorithm, the lazy package loading, the qualname reverse index, and the
diagnostic logs.

Modelling conventions:
* Python strings are `String`, Python lists are `List`, `None`-able
  values are `Option`, and a raised exception is an `Except.error`
  carrying the exception class together with the object state at the
  moment of the raise (nothing after the raise runs).
* Calls into the Python standard library (`os.path.*`, `glob.glob`,
  `fnmatch.fnmatch`, `os.scandir`, `os.path.exists`) are outside this
  repository; they are passed in as an explicit environment record
  `OsFs` of oracle functions, and the code of `project.py` is translated
  around them.
* Python object identity for lazily (re)built children is captured by a
  generation tag: the package state counts `scan_path` invocations, and
  every child built by `Package.load` is tagged with the generation that
  built it, so "the same objects" is plain equality of tagged values.
-/

/-! ### Python string primitives (modelled on character lists) -/

/-- Python `str.split(sep)` for a one-character separator, on character
lists: the result is never empty and keeps empty pieces, exactly like
Python `split` with an explicit separator. -/
def splitPred (p : Char → Bool) : List Char → List (List Char)
  | [] => [[]]
  | x :: xs =>
    match splitPred p xs with
    | [] => [[]]
    | h :: t => if p x then [] :: h :: t else (x :: h) :: t

theorem splitPred_ne_nil (p : Char → Bool) (l : List Char) : splitPred p l ≠ [] := by
  cases l with
  | nil => simp [splitPred]
  | cons x xs =>
    simp only [splitPred]
    cases h : splitPred p xs with
    | nil => simp
    | cons hd tl => by_cases hx : p x <;> simp [hx]

theorem splitPred_length (p : Char → Bool) (l : List Char) :
    (splitPred p l).length = l.countP p + 1 := by
  induction l with
  | nil => simp [splitPred]
  | cons x xs ih =>
    cases h : splitPred p xs with
    | nil => exact absurd h (splitPred_ne_nil p xs)
    | cons hd tl =>
      rw [h] at ih
      by_cases hx : p x <;>
        simp [splitPred, h, hx, List.countP_cons] at ih ⊢ <;> omega

/-- Python `s.split(c)` for a single-character separator `c`. -/
def pySplit (s : String) (c : Char) : List String :=
  (splitPred (fun a => a == c) s.toList).map (fun l => String.mk l)

/-- Python `s.split()` (no argument): split on whitespace runs and drop
the empty pieces. -/
def pySplitWs (s : String) : List String :=
  ((splitPred Char.isWhitespace s.toList).filter (fun l => l ≠ [])).map
    (fun l => String.mk l)

/-- Python `s.strip(chars)`: remove leading and trailing characters that
belong to `chars`; an empty `chars` removes nothing. -/
def pyStripChars (s chars : String) : String :=
  String.mk
    (((s.toList.dropWhile (fun a => chars.toList.contains a)).reverse.dropWhile
      (fun a => chars.toList.contains a)).reverse)

/-- Python `s.strip()` with no argument: remove surrounding whitespace. -/
def pyStripWs (s : String) : String :=
  String.mk
    (((s.toList.dropWhile Char.isWhitespace).reverse.dropWhile
      Char.isWhitespace).reverse)

/-- Python `s.replace('%20%', ' ')`, the placeholder decoding used by
`vlist` in `Project.load` (left-to-right, non-overlapping). -/
def replace20 : List Char → List Char
  | '%' :: '2' :: '0' :: '%' :: rest => ' ' :: replace20 rest
  | c :: rest => c :: replace20 rest
  | [] => []

def pyReplace20 (s : String) : String :=
  String.mk (replace20 s.toList)

/-- Python `'.'.join(xs)`. -/
def dotJoin : List String → String
  | [] => ""
  | [x] => x
  | x :: y :: xs => x ++ "." ++ dotJoin (y :: xs)

/-! ### Code units: `Module.name` and `Module.qualname`

`project.py` lines 151–195: a unit stores `_name` (defaulted from its
path by the constructor, or given explicitly) and a `parent` that is
either `None`, the `Project`, or an owning `Package`.  The constructor
argument is modelled as the stored raw name; the parent chain is the
inductive structure.  `top raw b` is a unit whose `parent` is the
Project (`b = true`) or `None` (`b = false`); `child raw p` is a unit
owned by the package unit `p`. -/

inductive CodeUnit where
  | top (raw : String) (parentIsProject : Bool)
  | child (raw : String) (parent : CodeUnit)
deriving DecidableEq

/-- The stored `_name` attribute. -/
def CodeUnit.rawName : CodeUnit → String
  | .top raw _ => raw
  | .child raw _ => raw

/-- The `name` property: `'' if self._name == '__init__' else self._name`. -/
def CodeUnit.name (u : CodeUnit) : String :=
  if u.rawName = "__init__" then "" else u.rawName

/-- The `qualname` property:
`if isinstance(self.parent, (Project, type(None))): return self._name`,
otherwise `self.parent.qualname + ('.' if self.name else '') + self.name`. -/
def CodeUnit.qualname : CodeUnit → String
  | .top raw _ => raw
  | .child raw p =>
    let nm := if raw = "__init__" then "" else raw
    CodeUnit.qualname p ++ (if nm = "" then "" else ".") ++ nm

theorem string_append_empty (s : String) : s ++ "" = s := by
  cases s with
  | mk data =>
    show String.mk (data ++ []) = String.mk data
    rw [List.append_nil]

/-- C1 counterexample: a Module named `__init__` sitting directly under
the Project (`parent` is the Project itself).  Its `name` property is
the empty string, as the claim says, but its `qualname` is the raw name
`"__init__"`: the `isinstance(self.parent, (Project, type(None)))`
branch returns `self._name` without the `__init__`-to-empty collapse,
so the qualname is neither "the parent's qualname unmodified" (the
Project has no qualname at all) nor free of the `__init__` segment.
The same holds with no parent (`parentIsProject = false`). -/
theorem C1_counterexample :
    CodeUnit.name (CodeUnit.top "__init__" true) = "" ∧
    CodeUnit.qualname (CodeUnit.top "__init__" true) = "__init__" ∧
    CodeUnit.qualname (CodeUnit.top "__init__" false) = "__init__" ∧
    ("__init__" : String) ≠ "" := by
  refine ⟨rfl, rfl, rfl, by decide⟩

/-- C1 (amended): for every Code Unit owned by another Code Unit (a
Package), `qualname` equals `parent.qualname ++ '.' ++ name` when `name`
is non-empty and equals `parent.qualname` when `name` is empty (the
`__init__` collapse); but when the immediate parent is the Project
itself or there is no parent, `qualname` is the raw stored `_name`, so a
top-level `__init__` Module keeps the literal name `__init__`. -/
theorem C1_qualname (p : CodeUnit) (raw : String) (b : Bool) :
    (CodeUnit.qualname (CodeUnit.child raw p) =
      if CodeUnit.name (CodeUnit.child raw p) = "" then CodeUnit.qualname p
      else CodeUnit.qualname p ++ "." ++ CodeUnit.name (CodeUnit.child raw p)) ∧
    CodeUnit.qualname (CodeUnit.top raw b) = raw := by
  have hn : CodeUnit.name (CodeUnit.child raw p) =
      (if raw = "__init__" then "" else raw) := rfl
  have hq : CodeUnit.qualname (CodeUnit.child raw p) =
      CodeUnit.qualname p ++
        (if (if raw = "__init__" then "" else raw) = "" then "" else ".") ++
        (if raw = "__init__" then "" else raw) := rfl
  constructor
  · rw [hq, hn]
    by_cases h : (if raw = "__init__" then "" else raw) = ""
    · rw [h]
      simp [string_append_empty]
    · rw [if_neg h, if_neg h]
  · rfl

/-! ### Environment: Python standard-library oracles

`os.path`, `glob`, `fnmatch` and `os.scandir` are outside this
repository; each call site in `project.py` goes through a field of this
record. -/

/-- One `os.scandir` entry: `name`, `is_dir(follow_symlinks=False)`,
`is_file(follow_symlinks=False)`. -/
structure DirEntry where
  name : String
  isDir : Bool
  isFile : Bool
deriving DecidableEq

structure OsFs where
  sep : Char
  isabs : String → Bool
  joinpath : String → String → String
  basename : String → String
  normpath : String → String
  relpath : String → String → String
  fnmatch : String → String → Bool
  glob : String → Bool → List String
  scandir : String → List DirEntry
  pathExists : String → Bool

/-- `GLOBAL_EXCLS = '.*', '__pycache__'` (project.py line 103). -/
def GLOBAL_EXCLS : List String := [".*", "__pycache__"]

/-- `GLOBAL_INCLS = '*.py', '*.pyw'` (project.py line 104). -/
def GLOBAL_INCLS : List String := ["*.py", "*.pyw"]

/-- `scan_path(path, includes=None, excludes=[])` (lines 114–126): list
one directory, partitioning entries into matched files and unexcluded
directories.  `includes = []` models the `None`/empty default, which
falls back to `GLOBAL_INCLS` exactly as the Python truthiness test does. -/
def scan_path (env : OsFs) (path : String) (includes excludes : List String) :
    List String × List String :=
  let xlist := if includes.isEmpty then GLOBAL_INCLS else includes
  (env.scandir path).foldl
    (fun acc et =>
      if excludes.any (fun x => env.fnmatch et.name x) then acc
      else if et.isDir then (acc.1, acc.2 ++ [et.name])
      else if et.isFile && xlist.any (fun x => env.fnmatch et.name x) then
        (acc.1 ++ [et.name], acc.2)
      else acc)
    ([], [])

/-- `search_item(root, pattern, excludes, recursive=0)` (lines 129–142):
glob one pattern (joined onto `root` unless absolute), drop entries
whose base name (after stripping a trailing separator) matches an
exclude pattern, and normalize the survivors.  `pattern.endswith(os.sep)`
is modelled as the last character being `os.sep`. -/
def search_item (env : OsFs) (root pattern : String) (excludes : List String)
    (recursive : Bool) : List String :=
  if pattern = "" then []
  else
    let sep := if pattern.toList.getLast? = some env.sep
      then String.mk [env.sep] else ""
    let pt := if env.isabs pattern then pattern else env.joinpath root pattern
    ((env.glob pt recursive).filter (fun item =>
      !(!excludes.isEmpty &&
        excludes.any (fun x => env.fnmatch (env.basename (pyStripChars item sep)) x)))).map
      env.normpath

/-! ### Project state and the diagnostic logs -/

/-- The Python exception classes raised by the modelled code. -/
inductive PyError where
  | keyError
  | indexError
  | typeError
  | valueError
deriving DecidableEq

/-- The mutable state of a `Project` instance (lines 352–378) that the
claims touch: `src`, the four top-level unit lists, and the diagnostic
logs.  Top-level `Script`/`Module` children are represented by the path
they are constructed with (`self.relsrc(x)`); top-level `Package`
children by their constructor arguments `(path, name)` with
`name = none` for the defaulted `Package(x, parent=self)` form.  The
lazily cached configuration mappings (`_rft_options`, `_rft_filters`,
`_rft_rulers`, `_builtins`) are untouched by every claimed operation and
are omitted; the reverse index `_rmodules` is modelled separately below
with `get_module`. -/
structure ProjectState where
  src : String
  _scripts : List String
  _modules : List String
  _packages : List (String × Option String)
  _namespaces : List String
  unknown_vars : List String
  unknown_attrs : List (String × String)
  unknown_calls : List String
  unknown_args : List String
deriving DecidableEq

/-- A freshly constructed `Project` (its `__init__`). -/
def initProject : ProjectState :=
  { src := ""
    _scripts := []
    _modules := []
    _packages := []
    _namespaces := []
    unknown_vars := []
    unknown_attrs := []
    unknown_calls := []
    unknown_args := [] }

/-- `Project.log_unknown_var(module, var)` (lines 745–748): append
`'%s:%s' % (module, var)` unless already present. -/
def log_unknown_var (l : List String) (module var : String) : List String :=
  let key := module ++ ":" ++ var
  if key ∈ l then l else l ++ [key]

/-- The argument of `Project.log_unknown_call`: either a plain string or
a structured caller object with `module` and `scopes` attributes. -/
inductive CallArg where
  | str (s : String)
  | caller (module : String) (scopes : List String)

/-- `Project.log_unknown_call(func)` (lines 750–760).  For a plain
string the code does `fields = func.split(':')` and indexes
`fields[2]`: fewer than three fields raises `IndexError`.  When
`fields[2]` has no `'.'`, the source line
`self.log_unknown_var('%s:%s.%s' % fields)` raises `TypeError`:
`fields` is a list, not a tuple, so the three-specifier format gets a
single argument (and even with a tuple, `log_unknown_var` would be
called with one positional argument instead of two).  Otherwise the
string is appended to `unknown_args` unless already present.  A
structured caller is recorded in `unknown_calls` under
`':'.join([func.module, '.'.join(func.scopes)])` unless present. -/
def log_unknown_call (π : ProjectState) (func : CallArg) :
    Except (PyError × ProjectState) ProjectState :=
  match func with
  | CallArg.str s =>
    match pySplit s ':' with
    | _f0 :: _f1 :: f2 :: _rest =>
      if '.' ∉ f2.toList then
        Except.error (PyError.typeError, π)
      else if s ∈ π.unknown_args then Except.ok π
      else Except.ok { π with unknown_args := π.unknown_args ++ [s] }
    | _ => Except.error (PyError.indexError, π)
  | CallArg.caller m scopes =>
    let nm := m ++ ":" ++ dotJoin scopes
    if nm ∈ π.unknown_calls then Except.ok π
    else Except.ok { π with unknown_calls := π.unknown_calls ++ [nm] }

theorem log_unknown_var_nodup (l : List String) (m v : String) (h : l.Nodup) :
    (log_unknown_var l m v).Nodup := by
  unfold log_unknown_var
  by_cases hk : (m ++ ":" ++ v) ∈ l
  · simpa [hk] using h
  · simp only [hk, if_neg, if_false]
    rw [List.nodup_append]
    exact ⟨h, List.nodup_singleton _, by
      intro a ha hb
      simp only [List.mem_singleton] at hb
      subst hb
      exact hk ha⟩

/-- C6: the diagnostic `unknown_vars` log never holds duplicate
composite keys -- logging the same `(module, var)` pair twice leaves
exactly one `'module:var'` entry, and starting from any duplicate-free
log every sequence of `log_unknown_var` calls keeps it duplicate-free. -/
theorem C6_dedup (l : List String) (m v : String) (h : l.Nodup) :
    (log_unknown_var (log_unknown_var l m v) m v).count (m ++ ":" ++ v) = 1 ∧
    (log_unknown_var l m v).Nodup ∧
    ∀ calls : List (String × String),
      (calls.foldl (fun acc mv => log_unknown_var acc mv.1 mv.2) l).Nodup := by
  refine ⟨?_, log_unknown_var_nodup l m v h, ?_⟩
  · by_cases hk : (m ++ ":" ++ v) ∈ l
    · have h1 : log_unknown_var l m v = l := by simp [log_unknown_var, hk]
      rw [h1, h1]
      exact List.count_eq_one_of_mem h hk
    · have h1 : log_unknown_var l m v = l ++ [m ++ ":" ++ v] := by
        simp [log_unknown_var, hk]
      have hk2 : (m ++ ":" ++ v) ∈ l ++ [m ++ ":" ++ v] := by simp
      have h2 : log_unknown_var (l ++ [m ++ ":" ++ v]) m v = l ++ [m ++ ":" ++ v] := by
        simp [log_unknown_var, hk2]
      rw [h1, h2, List.count_append]
      rw [List.count_eq_zero_of_not_mem hk]
      simp
  · have aux : ∀ (calls : List (String × String)) (l0 : List String), l0.Nodup →
        (calls.foldl (fun acc mv => log_unknown_var acc mv.1 mv.2) l0).Nodup := by
      intro calls
      induction calls with
      | nil => intro l0 h0; exact h0
      | cons mv rest ih =>
        intro l0 h0
        rw [List.foldl_cons]
        exact ih _ (log_unknown_var_nodup _ _ _ h0)
    exact fun calls => aux calls l h

/-- C6 witness: two identical calls on the fresh (empty, duplicate-free)
log leave exactly one `"m:x"` entry and a duplicate-free log. -/
theorem C6_dedup_witness :
    (log_unknown_var (log_unknown_var [] "m" "x") "m" "x").count ("m" ++ ":" ++ "x") = 1 ∧
    (log_unknown_var [] "m" "x").Nodup ∧
    ∀ calls : List (String × String),
      (calls.foldl (fun acc mv => log_unknown_var acc mv.1 mv.2) []).Nodup :=
  C6_dedup [] "m" "x" List.nodup_nil

/-- C10: a plain string argument of `log_unknown_call` containing fewer
than two `':'` characters makes `fields = func.split(':')` shorter than
three entries, so the unconditional `fields[2]` raises `IndexError`
before anything is recorded (the error carries the unchanged state). -/
theorem C10_index_error (π : ProjectState) (s : String)
    (h : s.toList.count ':' < 2) :
    log_unknown_call π (CallArg.str s) = Except.error (PyError.indexError, π) := by
  have hl : (pySplit s ':').length < 3 := by
    have := splitPred_length (fun a => a == ':') s.toList
    have hc : s.toList.countP (fun a => a == ':') = s.toList.count ':' := rfl
    simp only [pySplit, List.length_map, this, hc]
    omega
  show (match pySplit s ':' with
    | _f0 :: _f1 :: f2 :: _rest =>
      if '.' ∉ f2.toList then
        Except.error (PyError.typeError, π)
      else if s ∈ π.unknown_args then Except.ok π
      else Except.ok { π with unknown_args := π.unknown_args ++ [s] }
    | _ => Except.error (PyError.indexError, π)) = _
  rcases hsp : pySplit s ':' with _ | ⟨f0, _ | ⟨f1, _ | ⟨f2, rest⟩⟩⟩
  · rfl
  · rfl
  · rfl
  · rw [hsp] at hl
    simp at hl
    omega

/-- C10 witness: the plain key shape `module:var` (one colon) raises
`IndexError` and records nothing. -/
theorem C10_index_error_witness :
    log_unknown_call initProject (CallArg.str "m:v") =
      Except.error (PyError.indexError, initProject) :=
  C10_index_error initProject "m:v" (by decide)

/-- C4 counterexample: the claim says a plain string whose trailing
segment has an attribute chain is recorded in the unknown-call log
`unknown_calls`, and that one without a chain is redirected into
`unknown_vars`.  On the code, `"m:s:a.b"` (trailing segment `a.b`, an
attribute chain) lands in `unknown_args` while `unknown_calls` stays
empty, and `"m:s:v"` (no chain) raises `TypeError` instead of reaching
`unknown_vars`: `'%s:%s.%s' % fields` formats a list (not a tuple), and
`log_unknown_var` is invoked with one argument instead of two. -/
theorem C4_counterexample :
    log_unknown_call initProject (CallArg.str "m:s:a.b") =
      Except.ok { initProject with unknown_args := ["m:s:a.b"] } ∧
    (log_unknown_call initProject (CallArg.str "m:s:v") =
      Except.error (PyError.typeError, initProject)) := by
  constructor
  · rfl
  · rfl

/-- C4 (amended): for a plain string key with at least three
colon-separated fields, if the trailing field `fields[2]` has no
attribute chain the attempted redirect into the unknown-variable log
raises `TypeError` (list `%`-format and a missing argument), recording
nothing; otherwise the string is recorded as an unknown call in the
`unknown_args` log (not `unknown_calls`) when not already present, by
exact string equality. -/
theorem C4_call_branches (π : ProjectState) (s f0 f1 f2 : String)
    (rest : List String) (h : pySplit s ':' = f0 :: f1 :: f2 :: rest) :
    ('.' ∉ f2.toList →
      log_unknown_call π (CallArg.str s) = Except.error (PyError.typeError, π)) ∧
    ('.' ∈ f2.toList →
      log_unknown_call π (CallArg.str s) =
        Except.ok (if s ∈ π.unknown_args then π
          else { π with unknown_args := π.unknown_args ++ [s] })) := by
  have hdef : log_unknown_call π (CallArg.str s) =
      (match pySplit s ':' with
        | _f0 :: _f1 :: f2 :: _rest =>
          if '.' ∉ f2.toList then
            Except.error (PyError.typeError, π)
          else if s ∈ π.unknown_args then Except.ok π
          else Except.ok { π with unknown_args := π.unknown_args ++ [s] }
        | _ => Except.error (PyError.indexError, π)) := rfl
  constructor
  · intro hdot
    rw [hdef, h]
    show (if '.' ∉ f2.toList then
        (Except.error (PyError.typeError, π) : Except (PyError × ProjectState) ProjectState)
      else if s ∈ π.unknown_args then Except.ok π
      else Except.ok { π with unknown_args := π.unknown_args ++ [s] }) = _
    rw [if_pos hdot]
  · intro hdot
    rw [hdef, h]
    show (if '.' ∉ f2.toList then
        (Except.error (PyError.typeError, π) : Except (PyError × ProjectState) ProjectState)
      else if s ∈ π.unknown_args then Except.ok π
      else Except.ok { π with unknown_args := π.unknown_args ++ [s] }) = _
    rw [if_neg (not_not_intro hdot)]
    split <;> rfl

/-- C4 witness: at `"m:s:a.b"` the trailing field `a.b` has a chain and
the call appends to `unknown_args` of a fresh project. -/
theorem C4_call_branches_witness :
    log_unknown_call initProject (CallArg.str "m:s:a.b") =
      Except.ok (if "m:s:a.b" ∈ initProject.unknown_args then initProject
        else { initProject with unknown_args := initProject.unknown_args ++ ["m:s:a.b"] }) :=
  (C4_call_branches initProject "m:s:a.b" "m" "s" "a.b" [] rfl).2 (by decide)

/-! ### Package lazy loading (lines 245–290)

A `Package` holds `_modules` and `_packages`, both `None` until the
first load.  `Package.load` performs one `scan_path` of the package's
absolute path with the fixed `GLOBAL_EXCLS` and rebuilds both child
lists from scratch; the `modules`/`packages` accessors call `load` only
when their own sentinel is still `None`.  The state counts `scan_path`
invocations (`scans`), and each child carries the generation that built
it, standing for Python object identity of the freshly constructed
`Module`/`Package` children. -/

structure PkgState where
  _modules : Option (List (String × Nat))
  _packages : Option (List (String × Nat))
  scans : Nat
deriving DecidableEq

/-- A freshly constructed `Package` (its `__init__`): both sentinels are
`None` and no scan has happened. -/
def freshPkg : PkgState :=
  { _modules := none, _packages := none, scans := 0 }

/-- `Package.load(self)` (lines 254–258): unconditionally scan
`self.abspath` (passed in as `path`) with `excludes = GLOBAL_EXCLS` and
rebuild both child lists, replacing whatever was there. -/
def pkgLoad (env : OsFs) (path : String) (st : PkgState) : PkgState :=
  let fd := scan_path env path [] GLOBAL_EXCLS
  let g := st.scans + 1
  { _modules := some (fd.1.map (fun x => (x, g)))
    _packages := some (fd.2.map (fun x => (x, g)))
    scans := g }

/-- The `Package.modules` property (lines 260–270): load if `_modules`
is still `None`, then yield the cached list. -/
def pkgModules (env : OsFs) (path : String) (st : PkgState) :
    List (String × Nat) × PkgState :=
  let st' := if st._modules = none then pkgLoad env path st else st
  (st'._modules.getD [], st')

/-- The `Package.packages` property (lines 272–279): load if `_packages`
is still `None`, then yield the cached list. -/
def pkgPackages (env : OsFs) (path : String) (st : PkgState) :
    List (String × Nat) × PkgState :=
  let st' := if st._packages = none then pkgLoad env path st else st
  (st'._packages.getD [], st')

/-- A concrete environment for the package counterexample/witnesses:
a directory `/p` holding one plain file `m.py`. -/
def envP : OsFs :=
  { sep := '/'
    isabs := fun s => s.toList.head? = some '/'
    joinpath := fun a b => a ++ "/" ++ b
    basename := fun s => String.mk (s.toList.reverse.takeWhile (fun c => c ≠ '/')).reverse
    normpath := fun s => s
    relpath := fun p _ => p
    fnmatch := fun n pat =>
      (pat == "*.py" && (n.toList.reverse.take 3 == ['y', 'p', '.'])) || (pat == n)
    glob := fun _ _ => []
    scandir := fun d => if d = "/p" then [{ name := "m.py", isDir := false, isFile := true }] else []
    pathExists := fun _ => false }

/-- C2 counterexample: calling `Package.load()` a second time on an
already loaded package is not a no-op.  There is no "not yet loaded"
guard inside `load` itself: the second call performs another
`scan_path` (the scan counter moves from 1 to 2) and replaces the
previously built child `Module` objects with fresh ones (the child
generation tags change), even though the filesystem is unchanged. -/
theorem C2_counterexample :
    pkgLoad envP "/p" (pkgLoad envP "/p" freshPkg) ≠ pkgLoad envP "/p" freshPkg ∧
    (pkgLoad envP "/p" freshPkg)._modules = some [("m.py", 1)] ∧
    (pkgLoad envP "/p" (pkgLoad envP "/p" freshPkg))._modules = some [("m.py", 2)] := by
  refine ⟨by decide, rfl, rfl⟩

/-- C2 (amended): `Package.load()` itself is unguarded -- every call
re-scans the filesystem (one more `scan_path`) and rebuilds the child
lists.  The "not yet loaded" sentinel lives in the accessors instead:
once both sentinels are populated, the `modules` and `packages`
accessors return the cached children unchanged without calling `load`,
so a second access is a no-op. -/
theorem C2_load_guard (env : OsFs) (path : String) (st : PkgState)
    (ms ps : List (String × Nat))
    (hm : st._modules = some ms) (hp : st._packages = some ps) :
    pkgModules env path st = (ms, st) ∧
    pkgPackages env path st = (ps, st) ∧
    (pkgLoad env path st).scans = st.scans + 1 := by
  refine ⟨?_, ?_, rfl⟩
  · simp [pkgModules, hm]
  · simp [pkgPackages, hp]

/-- C2 witness: a loaded package (one module child, one prior scan)
whose accessors are no-ops while `load` itself would scan again. -/
theorem C2_load_guard_witness :
    pkgModules envP "/p" (pkgLoad envP "/p" freshPkg) =
      ([("m.py", 1)], pkgLoad envP "/p" freshPkg) ∧
    pkgPackages envP "/p" (pkgLoad envP "/p" freshPkg) =
      ([], pkgLoad envP "/p" freshPkg) ∧
    (pkgLoad envP "/p" (pkgLoad envP "/p" freshPkg)).scans =
      (pkgLoad envP "/p" freshPkg).scans + 1 :=
  C2_load_guard envP "/p" (pkgLoad envP "/p" freshPkg) [("m.py", 1)] [] rfl rfl

/-- C5: on any reachable package state (the constructor sets both
sentinels to `None`; `load` sets both at once, so the two sentinels are
populated together), calling the `modules` accessor twice yields
object-identical results (the same generation-tagged children and the
same state), likewise `packages`, and the lazy load triggered by one
accessor is visible to the other: after one accessor runs, the other
performs no further scan and no further mutation. -/
theorem C5_accessors (env : OsFs) (path : String) (st : PkgState)
    (h : st._modules = none ↔ st._packages = none) :
    pkgModules env path (pkgModules env path st).2 = (pkgModules env path st) ∧
    pkgPackages env path (pkgPackages env path st).2 = (pkgPackages env path st) ∧
    (pkgPackages env path (pkgModules env path st).2).2 = (pkgModules env path st).2 ∧
    (pkgModules env path (pkgPackages env path st).2).2 = (pkgPackages env path st).2 := by
  by_cases hm : st._modules = none
  · have hp : st._packages = none := h.mp hm
    unfold pkgModules pkgPackages
    rw [hm, hp]
    simp [pkgLoad]
  · have hp : ¬ st._packages = none := fun hpn => hm (h.mpr hpn)
    unfold pkgModules pkgPackages
    rw [if_neg hm, if_neg hp]
    simp [hm, hp]

/-- C5 witness: on the fresh package over the concrete directory `/p`,
both sentinels agree and the accessor laws hold. -/
theorem C5_accessors_witness :
    pkgModules envP "/p" (pkgModules envP "/p" freshPkg).2 =
      (pkgModules envP "/p" freshPkg) ∧
    pkgPackages envP "/p" (pkgPackages envP "/p" freshPkg).2 =
      (pkgPackages envP "/p" freshPkg) ∧
    (pkgPackages envP "/p" (pkgModules envP "/p" freshPkg).2).2 =
      (pkgModules envP "/p" freshPkg).2 ∧
    (pkgModules envP "/p" (pkgPackages envP "/p" freshPkg).2).2 =
      (pkgPackages envP "/p" freshPkg).2 :=
  C5_accessors envP "/p" freshPkg (by decide)

/-! ### `Project.get_module` and the reverse index (lines 651–659)

`get_module` builds `self._rmodules = {x.qualname: x for x in
self.iter_module()}` once, then answers lookups with `dict.get`, which
returns `None` for unknown names.  The enumeration produced by
`Project.iter_module` is carried as the state's `units` field, one
`(qualname, unit)` pair per yielded module, with the unit represented by
an identity tag; the dict comprehension is the fold below, in which a
later duplicate key overwrites an earlier one exactly as in Python. -/

structure IndexState where
  units : List (String × Nat)
  _rmodules : Option (List (String × Nat))
deriving DecidableEq

/-- Python `d[k] = v` on an insertion-ordered dict represented as an
association list: replace in place or append. -/
def dictSet : List (String × Nat) → String → Nat → List (String × Nat)
  | [], k, v => [(k, v)]
  | kv :: rest, k, v =>
    if kv.1 = k then (k, v) :: rest else kv :: dictSet rest k v

/-- Python `d.get(k)`: the first (unique) binding of `k`, `None` when
absent. -/
def dictGet : List (String × Nat) → String → Option Nat
  | [], _ => none
  | kv :: rest, k => if kv.1 = k then some kv.2 else dictGet rest k

/-- `{x.qualname: x for x in self.iter_module()}`. -/
def buildIndex (units : List (String × Nat)) : List (String × Nat) :=
  units.foldl (fun m u => dictSet m u.1 u.2) []

/-- `Project.get_module(qualname)`: build the reverse index on first
use, then a dictionary lookup. -/
def getModule (st : IndexState) (q : String) : Option Nat × IndexState :=
  match st._rmodules with
  | none =>
    let m := buildIndex st.units
    (dictGet m q, { st with _rmodules := some m })
  | some m => (dictGet m q, st)

theorem dictGet_dictSet_ne (m : List (String × Nat)) (k q : String) (v : Nat)
    (h : q ≠ k) : dictGet (dictSet m k v) q = dictGet m q := by
  induction m with
  | nil => simp [dictSet, dictGet, Ne.symm h]
  | cons kv rest ih =>
    by_cases hk : kv.1 = k
    · have hkq : ¬ kv.1 = q := by rw [hk]; exact Ne.symm h
      simp [dictSet, hk, dictGet, Ne.symm h, hkq]
    · by_cases hq : kv.1 = q <;> simp [dictSet, hk, dictGet, hq, h, ih]

theorem dictGet_buildIndex_not_mem (units : List (String × Nat)) (q : String)
    (h : ∀ u ∈ units, u.1 ≠ q) : dictGet (buildIndex units) q = none := by
  have aux : ∀ (us : List (String × Nat)) (m : List (String × Nat)),
      (∀ u ∈ us, u.1 ≠ q) → dictGet m q = none →
      dictGet (us.foldl (fun acc u => dictSet acc u.1 u.2) m) q = none := by
    intro us
    induction us with
    | nil => intro m _ hm; exact hm
    | cons u rest ih =>
      intro m hus hm
      rw [List.foldl_cons]
      refine ih _ (fun x hx => hus x (List.mem_cons_of_mem u hx)) ?_
      rw [dictGet_dictSet_ne m u.1 q u.2 (Ne.symm (hus u (List.mem_cons_self u rest)))]
      exact hm
  exact aux units [] h rfl

/-- C8: on any reachable state of the reverse index (never built, or
built from the project's module enumeration), `get_module` returns the
same unit for repeated calls with the same qualname and leaves the state
fixed after the first call; and a qualname never present in the tree
yields "not found" (`None`), not an error. -/
theorem C8_get_module (st : IndexState) (q : String)
    (hwf : st._rmodules = none ∨ st._rmodules = some (buildIndex st.units)) :
    (getModule (getModule st q).2 q).1 = (getModule st q).1 ∧
    (getModule (getModule st q).2 q).2 = (getModule st q).2 ∧
    ((∀ u ∈ st.units, u.1 ≠ q) → (getModule st q).1 = none) := by
  rcases hwf with hn | hs
  · refine ⟨?_, ?_, ?_⟩
    · simp [getModule, hn]
    · simp [getModule, hn]
    · intro h
      simp [getModule, hn, dictGet_buildIndex_not_mem st.units q h]
  · refine ⟨?_, ?_, ?_⟩
    · simp [getModule, hs]
    · simp [getModule, hs]
    · intro h
      simp [getModule, hs, dictGet_buildIndex_not_mem st.units q h]

/-- C8 witness: a project whose enumeration holds one module with
qualname `"a"`; looking up the absent qualname `"b"` twice returns
`none` both times and leaves the built index unchanged. -/
theorem C8_get_module_witness :
    (getModule (getModule { units := [("a", 0)], _rmodules := none } "b").2 "b").1 =
      (getModule { units := [("a", 0)], _rmodules := none } "b").1 ∧
    (getModule (getModule { units := [("a", 0)], _rmodules := none } "b").2 "b").2 =
      (getModule { units := [("a", 0)], _rmodules := none } "b").2 ∧
    ((∀ u ∈ ({ units := [("a", 0)], _rmodules := none } : IndexState).units, u.1 ≠ "b") →
      (getModule { units := [("a", 0)], _rmodules := none } "b").1 = none) :=
  C8_get_module { units := [("a", 0)], _rmodules := none } "b" (Or.inl rfl)

/-! ### `Project.load(data)` (lines 673–743)

The input record: `src` is read with `data['src']` (a `KeyError` when
absent); every other field goes through `data.get(...)` with a default.
The `os.makedirs(dp, exist_ok=True)` call at the top touches only the
external filesystem, never the project state, and is not modelled. -/

structure InitData where
  src : Option String
  name : Option String
  excludes : Option String
  scripts : Option String
  modules : Option String
  packages : Option String
deriving DecidableEq

/-- `vlist(name)` inside `load`:
`[x.strip().replace('%20%', ' ') for x in data.get(name, '').split()]`. -/
def vlist (field : Option String) : List String :=
  (pySplitWs (field.getD "")).map (fun x => pyReplace20 (pyStripWs x))

/-- `excludes = vlist('excludes') + list(GLOBAL_EXCLS)`. -/
def loadExcludes (data : InitData) : List String :=
  vlist data.excludes ++ GLOBAL_EXCLS

/-- The `for pat in vlist(...): acc.extend(search_item(src, pat, excludes))`
loops used for both the script and the module patterns. -/
def resolvePats (env : OsFs) (src : String) (pats excludes : List String) :
    List String :=
  pats.foldl (fun acc pat => acc ++ search_item env src pat excludes false) []

/-- The resolved script path list of `Project.load`. -/
def resolvedScripts (env : OsFs) (src : String) (data : InitData) : List String :=
  resolvePats env src (vlist data.scripts) (loadExcludes data)

/-- The resolved module path list of `Project.load` (before overlap
reconciliation). -/
def resolvedModules (env : OsFs) (src : String) (data : InitData) : List String :=
  resolvePats env src (vlist data.modules) (loadExcludes data)

/-- Parsing one non-`@section` entry of the `packages` list
(lines 707–714): `path` (name defaults to `basename(path)`) or
`path@name`; `item.split('@')` with more than one `'@'` raises
`ValueError` at the two-name unpacking. -/
def parsePkgItem (env : OsFs) (item : String) : Except PyError (String × String) :=
  if '@' ∉ item.toList then Except.ok (item, env.basename item)
  else
    match pySplit item '@' with
    | [p, n] => Except.ok (p, n)
    | _ => Except.error PyError.valueError

/-- The `for item in packages:` loop (lines 705–718): `@sect` entries
are skipped (`continue`), other entries are parsed, resolved against
`src` when relative, and appended one at a time -- so a `ValueError`
mid-loop keeps the packages appended before it. -/
def addPackages (env : OsFs) (src : String) (items : List String)
    (π : ProjectState) : Except (PyError × ProjectState) ProjectState :=
  match items with
  | [] => Except.ok π
  | item :: rest =>
    if item.toList.head? = some '@' then addPackages env src rest π
    else
      match parsePkgItem env item with
      | Except.error e => Except.error (e, π)
      | Except.ok (p, n) =>
        addPackages env src rest
          { π with _packages := π._packages ++
              [(if env.isabs p then p else env.joinpath src p, some n)] }

/-- `set(scripts) & set(modules)`: the distinct paths claimed by both
lists.  Python iterates this set in an unspecified order; the loop
removes the first occurrence of each distinct element, and removals of
distinct elements commute, so a fixed enumeration order is an
equivalent model. -/
def overlapSet (scripts modules : List String) : List String :=
  scripts.dedup.filter (fun x => decide (x ∈ modules))

/-- Lines 733–736: `if scripts and modules: for x in set(scripts) &
set(modules): modules.remove(x)` -- each distinct shared path loses its
first occurrence in the module list. -/
def pyReconcile (scripts modules : List String) : List String :=
  if scripts.isEmpty || modules.isEmpty then modules
  else (overlapSet scripts modules).foldl (fun ms x => ms.erase x) modules

/-- Lines 733–739: reconcile the overlap, then materialize the
remaining module paths as top-level `Module(self.relsrc(x))` units. -/
def finishLoad (env : OsFs) (src : String) (π : ProjectState)
    (scripts modules : List String) : ProjectState :=
  { π with _modules := π._modules ++
      (pyReconcile scripts modules).map (fun x => env.relpath x src) }

/-- `pkgname = name if name else basename(src)` (line 723): Python
truthiness, so both `None` and the empty string fall back. -/
def pkgDefaultName (env : OsFs) (src : String) (nameField : Option String) : String :=
  match nameField with
  | some n => if n = "" then env.basename src else n
  | none => env.basename src

/-- Lines 720–731, the `elif not modules and not scripts:` branch:
`src` itself becomes one package when it holds an `__init__.py`,
otherwise one non-recursive scan of `src` promotes every matched file
to a module path and every surviving subdirectory to a
`Package(x, parent=self)` (name defaulted from the path, modelled as
`none`); either way control falls through to the shared
reconcile-and-materialize tail. -/
def srcFallback (env : OsFs) (src : String) (nameField : Option String)
    (π : ProjectState) (excludes scripts modules : List String) : ProjectState :=
  if env.pathExists (env.joinpath src "__init__.py") then
    finishLoad env src
      { π with _packages := π._packages ++ [(src, some (pkgDefaultName env src nameField))] }
      scripts modules
  else
    match scan_path env src [] excludes with
    | (files, dirs) =>
      finishLoad env src
        { π with _packages := π._packages ++ dirs.map (fun x => (x, (none : Option String))) }
        scripts (modules ++ files.map (fun x => env.joinpath src x))

/-- Lines 688–697: `src = self.src = data['src']`, then the resolved
scripts become `Script(self.relsrc(x), parent=self)` units. -/
def afterScripts (env : OsFs) (src : String) (π : ProjectState)
    (data : InitData) : ProjectState :=
  { π with src := src
           _scripts := π._scripts ++
             (resolvedScripts env src data).map (fun x => env.relpath x src) }

/-- `Project.load(data)` (lines 673–743). -/
def projLoad (env : OsFs) (π0 : ProjectState) (data : InitData) :
    Except (PyError × ProjectState) ProjectState :=
  match data.src with
  | none => Except.error (PyError.keyError, π0)
  | some src =>
    if (vlist data.packages).isEmpty then
      if (resolvedModules env src data).isEmpty &&
          (resolvedScripts env src data).isEmpty then
        Except.ok (srcFallback env src data.name (afterScripts env src π0 data)
          (loadExcludes data) (resolvedScripts env src data)
          (resolvedModules env src data))
      else
        Except.ok (finishLoad env src (afterScripts env src π0 data)
          (resolvedScripts env src data) (resolvedModules env src data))
    else
      match addPackages env src (vlist data.packages) (afterScripts env src π0 data) with
      | Except.error e => Except.error e
      | Except.ok π3 =>
        Except.ok (finishLoad env src π3 (resolvedScripts env src data)
          (resolvedModules env src data))

theorem parsePkgItem_err (env : OsFs) (item : String) (e : PyError)
    (h : parsePkgItem env item = Except.error e) : e = PyError.valueError := by
  unfold parsePkgItem at h
  by_cases hc : '@' ∉ item.toList
  · rw [if_pos hc] at h
    cases h
  · rw [if_neg hc] at h
    rcases hsp : pySplit item '@' with _ | ⟨a, _ | ⟨b, _ | ⟨c, t⟩⟩⟩ <;> rw [hsp] at h <;>
      simp at h <;> exact h.symm

theorem addPackages_err (env : OsFs) (src : String) (items : List String)
    (π : ProjectState) (e : PyError) (π' : ProjectState)
    (h : addPackages env src items π = Except.error (e, π')) :
    e = PyError.valueError := by
  induction items generalizing π with
  | nil => exact absurd h (by simp [addPackages])
  | cons item rest ih =>
    unfold addPackages at h
    by_cases hat : item.toList.head? = some '@'
    · rw [if_pos hat] at h
      exact ih _ h
    · rw [if_neg hat] at h
      rcases hp : parsePkgItem env item with e0 | pn <;> rw [hp] at h
      · simp at h
        exact h.1 ▸ parsePkgItem_err env item e0 hp
      · exact ih _ h

theorem addPackages_ok (env : OsFs) (src : String) (items : List String)
    (π π' : ProjectState) (h : addPackages env src items π = Except.ok π') :
    π'.src = π.src ∧ π'._scripts = π._scripts ∧ π'._modules = π._modules ∧
    (∃ np, π'._packages = π._packages ++ np) ∧
    π'._namespaces = π._namespaces := by
  induction items generalizing π with
  | nil =>
    simp [addPackages] at h
    subst h
    exact ⟨rfl, rfl, rfl, ⟨[], by simp⟩, rfl⟩
  | cons item rest ih =>
    unfold addPackages at h
    by_cases hat : item.toList.head? = some '@'
    · rw [if_pos hat] at h
      exact ih _ h
    · rw [if_neg hat] at h
      rcases hp : parsePkgItem env item with e0 | pn <;> rw [hp] at h
      · exact absurd h (by simp)
      · obtain ⟨h1, h2, h3, ⟨np, h4⟩, h5⟩ := ih _ h
        refine ⟨h1, h2, h3,
          ⟨[(if env.isabs pn.1 then pn.1 else env.joinpath src pn.1, some pn.2)] ++ np, ?_⟩, h5⟩
        rw [h4]
        simp

/-- Unfolding of `projLoad` when the `src` field is present. -/
theorem projLoad_some (env : OsFs) (π : ProjectState) (data : InitData)
    (src : String) (hs : data.src = some src) :
    projLoad env π data =
      if (vlist data.packages).isEmpty then
        if (resolvedModules env src data).isEmpty &&
            (resolvedScripts env src data).isEmpty then
          Except.ok (srcFallback env src data.name (afterScripts env src π data)
            (loadExcludes data) (resolvedScripts env src data)
            (resolvedModules env src data))
        else
          Except.ok (finishLoad env src (afterScripts env src π data)
            (resolvedScripts env src data) (resolvedModules env src data))
      else
        match addPackages env src (vlist data.packages) (afterScripts env src π data) with
        | Except.error e => Except.error e
        | Except.ok π3 =>
          Except.ok (finishLoad env src π3 (resolvedScripts env src data)
            (resolvedModules env src data)) := by
  unfold projLoad
  rw [hs]

/-- Case analysis of a successful `Project.load`: one of the three
branches produced the final state. -/
theorem projLoad_ok_shape (env : OsFs) (π : ProjectState) (data : InitData)
    (src : String) (st' : ProjectState)
    (hs : data.src = some src) (h : projLoad env π data = Except.ok st') :
    ((vlist data.packages).isEmpty = false ∧
      ∃ π3, addPackages env src (vlist data.packages) (afterScripts env src π data) =
          Except.ok π3 ∧
        st' = finishLoad env src π3 (resolvedScripts env src data)
          (resolvedModules env src data)) ∨
    ((vlist data.packages).isEmpty = true ∧
      ((resolvedModules env src data).isEmpty &&
        (resolvedScripts env src data).isEmpty) = true ∧
      st' = srcFallback env src data.name (afterScripts env src π data)
        (loadExcludes data) (resolvedScripts env src data)
        (resolvedModules env src data)) ∨
    ((vlist data.packages).isEmpty = true ∧
      ((resolvedModules env src data).isEmpty &&
        (resolvedScripts env src data).isEmpty) = false ∧
      st' = finishLoad env src (afterScripts env src π data)
        (resolvedScripts env src data) (resolvedModules env src data)) := by
  rw [projLoad_some env π data src hs] at h
  by_cases hp : (vlist data.packages).isEmpty
  · rw [if_pos hp] at h
    by_cases hm : ((resolvedModules env src data).isEmpty &&
        (resolvedScripts env src data).isEmpty) = true
    · rw [if_pos hm] at h
      simp at h
      exact Or.inr (Or.inl ⟨hp, hm, h.symm⟩)
    · rw [if_neg hm] at h
      simp at h
      exact Or.inr (Or.inr ⟨hp, by simpa using hm, h.symm⟩)
  · rw [if_neg hp] at h
    rcases ha : addPackages env src (vlist data.packages) (afterScripts env src π data)
      with e | π3 <;> rw [ha] at h
    · exact absurd h (by simp)
    · simp at h
      exact Or.inl ⟨by simpa using hp, π3, rfl, h.symm⟩

/-- C7: `Project.load(data)` raises `KeyError` exactly when the required
field `src` is absent from the input record; the failure is immediate --
the error carries the project state exactly as it was before the call,
with nothing appended -- and no other branch of `load` can produce a
`KeyError` (the only other raise in `load` is the `ValueError` of a
malformed `path@name` package entry). -/
theorem C7_keyerror (env : OsFs) (π : ProjectState) (data : InitData) :
    (data.src = none → projLoad env π data = Except.error (PyError.keyError, π)) ∧
    (∀ e π', projLoad env π data = Except.error (e, π') → e = PyError.keyError →
      data.src = none ∧ π' = π) := by
  constructor
  · intro h
    unfold projLoad
    rw [h]
  · intro e π' h he
    cases hs : data.src with
    | none =>
      unfold projLoad at h
      rw [hs] at h
      simp only [Except.error.injEq, Prod.mk.injEq] at h
      exact ⟨rfl, h.2.symm⟩
    | some src =>
      rw [projLoad_some env π data src hs] at h
      by_cases hp : (vlist data.packages).isEmpty
      · rw [if_pos hp] at h
        by_cases hm : ((resolvedModules env src data).isEmpty &&
            (resolvedScripts env src data).isEmpty) = true
        · rw [if_pos hm] at h
          exact absurd h (by simp)
        · rw [if_neg hm] at h
          exact absurd h (by simp)
      · rw [if_neg hp] at h
        rcases ha : addPackages env src (vlist data.packages)
            (afterScripts env src π data) with e0 | π3 <;> rw [ha] at h
        · rcases e0 with ⟨e1, πe⟩
          simp only [Except.error.injEq, Prod.mk.injEq] at h
          have hv := addPackages_err env src (vlist data.packages)
            (afterScripts env src π data) e1 πe ha
          have hkv : e = PyError.valueError := h.1 ▸ hv
          rw [he] at hkv
          cases hkv
        · exact absurd h (by simp)

/-- C7 witness: a record without `src` fails with `KeyError` and the
untouched fresh project state. -/
theorem C7_keyerror_witness :
    projLoad envP initProject
        { src := none, name := none, excludes := none, scripts := none,
          modules := none, packages := none } =
      Except.error (PyError.keyError, initProject) :=
  (C7_keyerror envP initProject
    { src := none, name := none, excludes := none, scripts := none,
      modules := none, packages := none }).1 rfl

theorem finishLoad_fields (env : OsFs) (src : String) (π : ProjectState)
    (scripts modules : List String) :
    (finishLoad env src π scripts modules)._scripts = π._scripts ∧
    (finishLoad env src π scripts modules)._modules =
      π._modules ++ (pyReconcile scripts modules).map (fun x => env.relpath x src) ∧
    (finishLoad env src π scripts modules)._packages = π._packages ∧
    (finishLoad env src π scripts modules)._namespaces = π._namespaces :=
  ⟨rfl, rfl, rfl, rfl⟩

theorem srcFallback_fields (env : OsFs) (src : String) (nf : Option String)
    (π : ProjectState) (excl scripts modules : List String) :
    (srcFallback env src nf π excl scripts modules)._scripts = π._scripts ∧
    (∃ nm, (srcFallback env src nf π excl scripts modules)._modules = π._modules ++ nm) ∧
    (∃ np, (srcFallback env src nf π excl scripts modules)._packages = π._packages ++ np) ∧
    (srcFallback env src nf π excl scripts modules)._namespaces = π._namespaces := by
  unfold srcFallback
  split
  · exact ⟨rfl, ⟨_, rfl⟩, ⟨_, rfl⟩, rfl⟩
  · exact ⟨rfl, ⟨_, rfl⟩, ⟨_, rfl⟩, rfl⟩

/-- C9: a second (lifecycle-violating) call of `Project.load` on the
same instance appends -- everything already in the script, module,
package lists survives, nothing is replaced or cleared, and the
namespace list is untouched.  (Stated for an arbitrary prior state `π`,
which covers in particular the state left by a first successful
`load`.) -/
theorem C9_append (env : OsFs) (π : ProjectState) (data : InitData)
    (st' : ProjectState) (h : projLoad env π data = Except.ok st') :
    (∃ ns, st'._scripts = π._scripts ++ ns) ∧
    (∃ nm, st'._modules = π._modules ++ nm) ∧
    (∃ np, st'._packages = π._packages ++ np) ∧
    st'._namespaces = π._namespaces := by
  cases hs : data.src with
  | none =>
    unfold projLoad at h
    rw [hs] at h
    cases h
  | some src =>
    rcases projLoad_ok_shape env π data src st' hs h with
      ⟨_, π3, ha, hst⟩ | ⟨_, _, hst⟩ | ⟨_, _, hst⟩
    · obtain ⟨h1, h2, h3, ⟨np, h4⟩, h5⟩ :=
        addPackages_ok env src (vlist data.packages) (afterScripts env src π data) π3 ha
      subst hst
      refine ⟨⟨(resolvedScripts env src data).map (fun x => env.relpath x src), ?_⟩,
        ⟨(pyReconcile (resolvedScripts env src data) (resolvedModules env src data)).map
          (fun x => env.relpath x src), ?_⟩, ⟨np, ?_⟩, ?_⟩
      · show π3._scripts = _
        rw [h2]
        rfl
      · show π3._modules ++ _ = _
        rw [h3]
        rfl
      · show π3._packages = _
        rw [h4]
        rfl
      · show π3._namespaces = _
        rw [h5]
        rfl
    · subst hst
      obtain ⟨f1, ⟨nm, f2⟩, ⟨np, f3⟩, f4⟩ :=
        srcFallback_fields env src data.name (afterScripts env src π data)
          (loadExcludes data) (resolvedScripts env src data)
          (resolvedModules env src data)
      refine ⟨⟨(resolvedScripts env src data).map (fun x => env.relpath x src), ?_⟩,
        ⟨nm, ?_⟩, ⟨np, ?_⟩, ?_⟩
      · rw [f1]
        rfl
      · rw [f2]
        rfl
      · rw [f3]
        rfl
      · rw [f4]
        rfl
    · subst hst
      exact ⟨⟨_, rfl⟩, ⟨_, rfl⟩, ⟨[], (List.append_nil π._packages).symm⟩, rfl⟩

/-- The environment for the `load` witnesses: an empty filesystem, so a
load of `{src: "/s"}` finds nothing and only sets `src`. -/
def envW : OsFs :=
  { sep := '/'
    isabs := fun s => s.toList.head? = some '/'
    joinpath := fun a b => a ++ "/" ++ b
    basename := fun s => String.mk (s.toList.reverse.takeWhile (fun c => c ≠ '/')).reverse
    normpath := fun s => s
    relpath := fun p _ => p
    fnmatch := fun _ _ => false
    glob := fun _ _ => []
    scandir := fun _ => []
    pathExists := fun _ => false }

def dataW : InitData :=
  { src := some "/s", name := none, excludes := none, scripts := none,
    modules := none, packages := none }

/-- The state after a first `load` of `dataW` over `envW` on a fresh
project: nothing on disk, so only `src` is set. -/
def loadedW : ProjectState := { initProject with src := "/s" }

/-- C9 witness: reloading `dataW` on the already loaded state `loadedW`
succeeds and appends (here: appends nothing new, keeping every list). -/
theorem C9_append_witness :
    (∃ ns, loadedW._scripts = loadedW._scripts ++ ns) ∧
    (∃ nm, loadedW._modules = loadedW._modules ++ nm) ∧
    (∃ np, loadedW._packages = loadedW._packages ++ np) ∧
    loadedW._namespaces = loadedW._namespaces :=
  C9_append envW loadedW dataW loadedW rfl

theorem count_foldl_erase_not_mem (x : String) (xs : List String) :
    ∀ l : List String, x ∉ xs →
      (xs.foldl (fun ms y => ms.erase y) l).count x = l.count x := by
  induction xs with
  | nil => intro l _; rfl
  | cons y ys ih =>
    intro l hx
    rw [List.foldl_cons]
    rw [ih _ (fun hmem => hx (List.mem_cons_of_mem y hmem))]
    exact List.count_erase_of_ne
      (by
        intro he
        exact hx (by rw [he]; exact List.mem_cons_self y ys)) l

theorem count_foldl_erase_mem (x : String) (xs : List String) :
    ∀ l : List String, xs.Nodup → x ∈ xs →
      (xs.foldl (fun ms y => ms.erase y) l).count x = l.count x - 1 := by
  induction xs with
  | nil => intro l _ hx; cases hx
  | cons y ys ih =>
    intro l hn hx
    rw [List.foldl_cons]
    rcases List.mem_cons.mp hx with rfl | hx2
    · have hnot : x ∉ ys := (List.nodup_cons.mp hn).1
      rw [count_foldl_erase_not_mem x ys _ hnot, List.count_erase_self]
    · have hy : x ≠ y := by
        intro he
        exact (List.nodup_cons.mp hn).1 (he ▸ hx2)
      rw [ih _ (List.nodup_cons.mp hn).2 hx2, List.count_erase_of_ne hy]

theorem overlapSet_nodup (scripts modules : List String) :
    (overlapSet scripts modules).Nodup :=
  (List.nodup_dedup scripts).filter _

theorem mem_overlapSet (scripts modules : List String) (p : String) :
    p ∈ overlapSet scripts modules ↔ p ∈ scripts ∧ p ∈ modules := by
  simp [overlapSet, List.mem_filter, List.mem_dedup]

/-- Each path shared by the two lists loses exactly one occurrence in
the module list. -/
theorem pyReconcile_count (scripts modules : List String) (p : String)
    (hs : p ∈ scripts) (hm : p ∈ modules) :
    (pyReconcile scripts modules).count p = modules.count p - 1 := by
  have h1 : scripts.isEmpty = false :=
    List.isEmpty_eq_false.mpr (List.ne_nil_of_mem hs)
  have h2 : modules.isEmpty = false :=
    List.isEmpty_eq_false.mpr (List.ne_nil_of_mem hm)
  unfold pyReconcile
  rw [h1, h2]
  simp only [Bool.or_self, Bool.false_eq_true, if_false]
  exact count_foldl_erase_mem p _ modules (overlapSet_nodup scripts modules)
    ((mem_overlapSet scripts modules p).mpr ⟨hs, hm⟩)

theorem foldl_erase_subset (xs : List String) :
    ∀ l : List String, (xs.foldl (fun ms y => ms.erase y) l) ⊆ l := by
  induction xs with
  | nil => intro l a ha; exact ha
  | cons y ys ih =>
    intro l a ha
    exact List.erase_subset y l (ih (l.erase y) ha)

theorem pyReconcile_subset (scripts modules : List String) :
    pyReconcile scripts modules ⊆ modules := by
  unfold pyReconcile
  split
  · exact fun a ha => ha
  · exact foldl_erase_subset _ modules

/-- The environment for the C3 scenario: `src = /s` holds one file
`a.py`, matched by the pattern `a.py`. -/
def envC : OsFs :=
  { sep := '/'
    isabs := fun s => s.toList.head? = some '/'
    joinpath := fun a b => a ++ "/" ++ b
    basename := fun s => String.mk (s.toList.reverse.takeWhile (fun c => c ≠ '/')).reverse
    normpath := fun s => s
    relpath := fun p _ => p
    fnmatch := fun n pat => n = pat
    glob := fun pt _ => if pt = "/s/a.py" then ["/s/a.py"] else []
    scandir := fun _ => []
    pathExists := fun _ => false }

/-- C3 counterexample data: the module pattern list names `a.py` twice,
so the resolved module list holds `/s/a.py` with multiplicity two. -/
def dataC : InitData :=
  { src := some "/s", name := none, excludes := none,
    scripts := some "a.py", modules := some "a.py a.py", packages := none }

def stC : ProjectState :=
  (projLoad envC initProject dataC).toOption.getD initProject

/-- C3 counterexample: `/s/a.py` is in both the resolved script set and
the resolved module set (with multiplicity two among the modules), yet
after `load` it appears among the Modules as well as among the Scripts:
`modules.remove(x)` deletes only the first occurrence, so the claim
fails for multiplicities above one. -/
theorem C3_counterexample :
    "/s/a.py" ∈ resolvedScripts envC "/s" dataC ∧
    "/s/a.py" ∈ resolvedModules envC "/s" dataC ∧
    (resolvedModules envC "/s" dataC).count "/s/a.py" = 2 ∧
    envC.relpath "/s/a.py" "/s" ∈ stC._scripts ∧
    envC.relpath "/s/a.py" "/s" ∈ stC._modules := by
  refine ⟨?_, ?_, ?_, ?_, ?_⟩ <;> decide

/-- C3 (amended): a path present in both the resolved script set and
the resolved module set ends up among the Scripts and not among the
Modules, provided it occurs exactly once in the resolved module list
(the reconciliation loop removes one occurrence per shared path); the
`relpath` injectivity premise says the externally supplied
`os.path.relpath` does not collapse the path with another resolved
module path. -/
theorem C3_overlap (env : OsFs) (data : InitData) (src p : String)
    (st' : ProjectState)
    (hsrc : data.src = some src)
    (h : projLoad env initProject data = Except.ok st')
    (hs : p ∈ resolvedScripts env src data)
    (hm : p ∈ resolvedModules env src data)
    (hc : (resolvedModules env src data).count p = 1)
    (hinj : ∀ x ∈ resolvedModules env src data,
      env.relpath x src = env.relpath p src → x = p) :
    env.relpath p src ∈ st'._scripts ∧ env.relpath p src ∉ st'._modules := by
  have hrec : p ∉ pyReconcile (resolvedScripts env src data)
      (resolvedModules env src data) := by
    have hcnt := pyReconcile_count (resolvedScripts env src data)
      (resolvedModules env src data) p hs hm
    rw [hc] at hcnt
    exact List.count_eq_zero.mp hcnt
  have hnm : env.relpath p src ∉
      (pyReconcile (resolvedScripts env src data)
        (resolvedModules env src data)).map (fun x => env.relpath x src) := by
    intro hmem
    rcases List.mem_map.mp hmem with ⟨q, hq, hqe⟩
    have hqmod : q ∈ resolvedModules env src data :=
      pyReconcile_subset _ _ hq
    have hqp : q = p := hinj q hqmod hqe
    exact hrec (hqp ▸ hq)
  have hsc : env.relpath p src ∈
      (resolvedScripts env src data).map (fun x => env.relpath x src) :=
    List.mem_map.mpr ⟨p, hs, rfl⟩
  rcases projLoad_ok_shape env initProject data src st' hsrc h with
    ⟨_, π3, ha, hst⟩ | ⟨_, hcond, hst⟩ | ⟨_, _, hst⟩
  · obtain ⟨_, h2, h3, _, _⟩ := addPackages_ok env src (vlist data.packages)
      (afterScripts env src initProject data) π3 ha
    subst hst
    constructor
    · show env.relpath p src ∈ π3._scripts
      rw [h2]
      show env.relpath p src ∈
        ([] : List String) ++ (resolvedScripts env src data).map (fun x => env.relpath x src)
      simpa using hsc
    · show env.relpath p src ∉ π3._modules ++ _
      rw [h3]
      show env.relpath p src ∉
        ([] : List String) ++ (pyReconcile (resolvedScripts env src data)
          (resolvedModules env src data)).map (fun x => env.relpath x src)
      simpa using hnm
  · exfalso
    have hme : (resolvedModules env src data).isEmpty = true := by
      have hcond2 := hcond
      simp only [Bool.and_eq_true] at hcond2
      exact hcond2.1
    rw [List.isEmpty_iff] at hme
    rw [hme] at hm
    cases hm
  · subst hst
    constructor
    · show env.relpath p src ∈
        ([] : List String) ++ (resolvedScripts env src data).map (fun x => env.relpath x src)
      simpa using hsc
    · show env.relpath p src ∉
        ([] : List String) ++ (pyReconcile (resolvedScripts env src data)
          (resolvedModules env src data)).map (fun x => env.relpath x src)
      simpa using hnm

/-- C3 witness data: the module pattern names `a.py` exactly once. -/
def dataCW : InitData :=
  { src := some "/s", name := none, excludes := none,
    scripts := some "a.py", modules := some "a.py", packages := none }

/-- The state a fresh project reaches after loading `dataCW` over
`envC`: the shared path stays a Script only. -/
def stCW : ProjectState := { initProject with src := "/s", _scripts := ["/s/a.py"] }

/-- C3 witness: with the shared path occurring once among the resolved
modules, after `load` it is a Script and not a Module. -/
theorem C3_overlap_witness :
    envC.relpath "/s/a.py" "/s" ∈ stCW._scripts ∧
    envC.relpath "/s/a.py" "/s" ∉ stCW._modules :=
  C3_overlap envC dataCW "/s" "/s/a.py" stCW rfl rfl (by decide)
    (by decide) (by decide) (by decide)
